import Mathlib

/-!
Verification development for a client-side token registry module.

The module resolves a list of token metadata records from one of several
interchangeable sources (GitHub raw file, CDN mirror, dedicated service,
or a bundled static snapshot), substituting the bundled snapshot for any
source whose fetch or JSON parse fails, and wraps the resolved list in an
immutable container offering chainable filtering operations.

The embedding below follows the source module closely:
per-source fetch-and-parse is modelled by an environment assigning to each
URL either a completed HTTP response or a transport failure; the bundled
static snapshot (an imported JSON document, external data of the package)
is a parameter of every definition that the source module reads it from.
-/

/-- Chain identifiers: the ENV enumeration of the source
(MainnetBeta = 101, Testnet = 102, Devnet = 103). -/
inductive ENV where
  | MainnetBeta
  | Testnet
  | Devnet
deriving DecidableEq, Repr

/-- Numeric value of an ENV member, as the source enum assigns it. -/
def ENV.toInt : ENV → Int
  | .MainnetBeta => 101
  | .Testnet => 102
  | .Devnet => 103

/-- Description attached to a tag name in a token-list document. -/
structure TagDetails where
  name : String
  description : String
deriving DecidableEq, Repr

/-- Open mapping of optional metadata fields attached to a token record. -/
structure TokenExtensions where
  website : Option String
  bridgeContract : Option String
  assetContract : Option String
  address : Option String
  explorer : Option String
  twitter : Option String
  github : Option String
  medium : Option String
  tgann : Option String
  tggroup : Option String
  discord : Option String
  serumV3Usdt : Option String
  serumV3Usdc : Option String
  coingeckoId : Option String
  imageUrl : Option String
  description : Option String
deriving DecidableEq, Repr

/-- One token metadata record. The tags field is optional in the source
interface; an absent field is modelled by none. -/
structure TokenInfo where
  chainId : Int
  address : String
  name : String
  decimals : Nat
  symbol : String
  logoURI : Option String
  tags : Option (List String)
  extensions : Option TokenExtensions
deriving DecidableEq, Repr

/-- A token-list document (the Record Collection). The source reads the
tokens field defensively (it may be absent from a fetched JSON document
despite the declared interface), so it is modelled as optional. -/
structure TokenList where
  name : String
  logoURI : String
  tags : List (String × TagDetails)
  timestamp : String
  tokens : Option (List TokenInfo)
deriving DecidableEq, Repr

/-- A completed HTTP response: its status (ok or not) and the outcome of
parsing its body as a token-list JSON document (none when the body is not
valid JSON, so that response.json() throws). -/
structure HttpResponse where
  ok : Bool
  jsonBody : Option TokenList
deriving DecidableEq, Repr

/-- The fetch environment: each URL either yields a completed response or
fails at the transport level (none, so that fetch rejects). -/
abbrev FetchEnv := String → Option HttpResponse

/-- The tokens sequence of a document, with a missing field read as the
empty sequence: the source expression tokenlist.tokens or-else empty. -/
def tokensOrEmpty (tl : TokenList) : List TokenInfo := tl.tokens.getD []

/-- Per-source fetch-and-parse step of queryJsonFiles. The source wraps
fetch(repo) and response.json() in a try/catch whose handler returns the
bundled static document, so a transport failure or a parse failure yields
the fallback; a successfully parsed body is returned as-is. Note that the
response status (ok flag) is never consulted by the source. -/
def fetchParse (env : FetchEnv) (tokenlist : TokenList) (repo : String) : TokenList :=
  match env repo with
  | none => tokenlist
  | some response =>
    match response.jsonBody with
    | none => tokenlist
    | some json => json

/-- Shared resolution algorithm: fetch every configured file, substitute
the bundled document for failures, then concatenate the per-document
tokens sequences (reduce with concat from the empty accumulator). -/
def queryJsonFiles (env : FetchEnv) (tokenlist : TokenList) (files : List String) : List TokenInfo :=
  let responses : List TokenList := files.map (fetchParse env tokenlist)
  (responses.map tokensOrEmpty).foldl (fun acc arr => acc ++ arr) []

/-- The multiset of settled fetch outcomes, keyed by source index: promise
i settles with the fetch-and-parse outcome of the i-th configured file.
A completion schedule is any permutation of this list. -/
def settleJsonFiles (env : FetchEnv) (tokenlist : TokenList) (files : List String) :
    List (Nat × TokenList) :=
  (List.range files.length).map (fun i => (i, fetchParse env tokenlist (files.getD i "")))

/-- Promise.all assembly: results are placed by source index in declaration
order, whatever order the entries of the settled list arrived in. -/
def assembleInOrder (n : Nat) (settled : List (Nat × TokenList)) : List TokenList :=
  (List.range n).filterMap (fun i => (settled.find? (fun p => p.1 == i)).map Prod.snd)

/-- The resolution algorithm evaluated against an explicit completion
schedule: assemble the settled outcomes in source-declaration order, then
concatenate the tokens sequences exactly as queryJsonFiles does. -/
def queryJsonFilesSettled (files : List String) (settled : List (Nat × TokenList)) :
    List TokenInfo :=
  ((assembleInOrder files.length settled).map tokensOrEmpty).foldl (fun acc arr => acc ++ arr) []

/-- Source URL configured for the GitHub strategy. -/
def GitHubTokenListResolutionStrategy.repositories : List String :=
  ["https://raw.githubusercontent.com/solana-labs/token-list/main/src/tokens/solana.tokenlist.json"]

/-- GitHub strategy resolution: query the configured repositories. -/
def GitHubTokenListResolutionStrategy.resolve (env : FetchEnv) (tokenlist : TokenList) :
    List TokenInfo :=
  queryJsonFiles env tokenlist GitHubTokenListResolutionStrategy.repositories

/-- Source URL configured for the CDN strategy. -/
def CDNTokenListResolutionStrategy.repositories : List String :=
  ["https://cdn.jsdelivr.net/gh/solana-labs/token-list@latest/src/tokens/solana.tokenlist.json"]

/-- CDN strategy resolution: query the configured repositories. -/
def CDNTokenListResolutionStrategy.resolve (env : FetchEnv) (tokenlist : TokenList) :
    List TokenInfo :=
  queryJsonFiles env tokenlist CDNTokenListResolutionStrategy.repositories

/-- Source URL configured for the dedicated-service strategy. -/
def SolanaTokenListResolutionStrategy.repositories : List String :=
  ["https://token-list.solana.com/solana.tokenlist.json"]

/-- Dedicated-service strategy resolution: query the configured repositories. -/
def SolanaTokenListResolutionStrategy.resolve (env : FetchEnv) (tokenlist : TokenList) :
    List TokenInfo :=
  queryJsonFiles env tokenlist SolanaTokenListResolutionStrategy.repositories

/-- Static strategy: return the bundled document's tokens directly. -/
def StaticTokenListResolutionStrategy.resolve (tokenlist : TokenList) : List TokenInfo :=
  tokensOrEmpty tokenlist

/-- Fixed mapping from cluster slugs to chain identifiers, in the source's
declaration order. -/
def CLUSTER_SLUGS : List (String × ENV) :=
  [("mainnet-beta", ENV.MainnetBeta), ("testnet", ENV.Testnet), ("devnet", ENV.Devnet)]

/-- Immutable container over a resolved sequence of records. -/
structure TokenListContainer where
  tokenList : List TokenInfo
deriving DecidableEq, Repr

/-- Keep records whose tag list (absent read as empty) contains the tag. -/
def TokenListContainer.filterByTag (c : TokenListContainer) (tag : String) : TokenListContainer :=
  ⟨c.tokenList.filter (fun item => (item.tags.getD []).contains tag)⟩

/-- Keep records whose chain identifier equals the argument. -/
def TokenListContainer.filterByChainId (c : TokenListContainer) (chainId : Int) :
    TokenListContainer :=
  ⟨c.tokenList.filter (fun item => item.chainId == chainId)⟩

/-- Keep records whose chain identifier differs from the argument. -/
def TokenListContainer.excludeByChainId (c : TokenListContainer) (chainId : Int) :
    TokenListContainer :=
  ⟨c.tokenList.filter (fun item => item.chainId != chainId)⟩

/-- Keep records whose tag list (absent read as empty) does not contain
the tag. -/
def TokenListContainer.excludeByTag (c : TokenListContainer) (tag : String) : TokenListContainer :=
  ⟨c.tokenList.filter (fun item => !((item.tags.getD []).contains tag))⟩

/-- Property names every plain object literal inherits from
Object.prototype, all visible to the JS in operator through the
prototype chain (the standard methods plus the Annex B accessors). -/
def OBJECT_PROTOTYPE_KEYS : List String :=
  ["constructor", "hasOwnProperty", "isPrototypeOf", "propertyIsEnumerable",
   "toLocaleString", "toString", "valueOf", "__proto__", "__defineGetter__",
   "__defineSetter__", "__lookupGetter__", "__lookupSetter__"]

/-- A runtime value the slug lookup can hand to filterByChainId: the ENV
number stored under an own key of CLUSTER_SLUGS, or the function/object
value of a property inherited from Object.prototype, which is never a
number. -/
inductive JsChainIdValue where
  | num (n : Int)
  | inheritedObject (key : String)
deriving DecidableEq, Repr

/-- JS strict equality between a record's numeric chainId and the value
handed to filterByChainId: numeric comparison against a number, always
false against an inherited non-numeric function or object. -/
def jsStrictEqNum (chainId : Int) : JsChainIdValue → Bool
  | .num n => chainId == n
  | .inheritedObject _ => false

/-- filterByChainId as it runs when reached from filterByClusterSlug,
where the argument is whatever CLUSTER_SLUGS indexing produced at
runtime (the declared number-or-ENV type notwithstanding). -/
def TokenListContainer.filterByChainIdJs (c : TokenListContainer) (v : JsChainIdValue) :
    TokenListContainer :=
  ⟨c.tokenList.filter (fun item => jsStrictEqNum item.chainId v)⟩

/-- The JS in operator applied to the plain object literal CLUSTER_SLUGS:
true for its own three keys and also for every property name inherited
from Object.prototype. -/
def inClusterSlugs (slug : String) : Bool :=
  (CLUSTER_SLUGS.map Prod.fst).contains slug || OBJECT_PROTOTYPE_KEYS.contains slug

/-- Indexing CLUSTER_SLUGS at a key the in operator accepted: an own key
yields its ENV member; otherwise the key names a property inherited from
Object.prototype and the read yields that inherited non-numeric value. -/
def clusterSlugsGet (slug : String) : JsChainIdValue :=
  match CLUSTER_SLUGS.lookup slug with
  | some env => JsChainIdValue.num env.toInt
  | none => JsChainIdValue.inheritedObject slug

/-- Guard the slug with the JS in operator on CLUSTER_SLUGS (own keys
and the prototype chain) and delegate to filterByChainId with whatever
value the indexed read produces; only when the in-check fails is an
Error thrown whose message interpolates the slug and Object.keys of the
mapping (own keys only, joined with commas). -/
def TokenListContainer.filterByClusterSlug (c : TokenListContainer) (slug : String) :
    Except String TokenListContainer :=
  if inClusterSlugs slug then
    Except.ok (c.filterByChainIdJs (clusterSlugsGet slug))
  else
    Except.error ("Unknown slug: " ++ slug ++ ", please use one of "
      ++ String.intercalate "," (CLUSTER_SLUGS.map Prod.fst))

/-- Return the held sequence. The source returns the internal array
itself; the reference-level consequences are modelled separately below. -/
def TokenListContainer.getList (c : TokenListContainer) : List TokenInfo := c.tokenList

/-- Strategy identifiers of the provider registry. -/
inductive Strategy where
  | GitHub
  | Static
  | Solana
  | CDN
deriving DecidableEq, Repr

/-- Provider resolution: look the strategy up, resolve, wrap in a
container. The default strategy at the call site is CDN. -/
def TokenListProvider.resolve (env : FetchEnv) (tokenlist : TokenList) (strategy : Strategy) :
    TokenListContainer :=
  match strategy with
  | .GitHub => ⟨GitHubTokenListResolutionStrategy.resolve env tokenlist⟩
  | .Static => ⟨StaticTokenListResolutionStrategy.resolve tokenlist⟩
  | .Solana => ⟨SolanaTokenListResolutionStrategy.resolve env tokenlist⟩
  | .CDN => ⟨CDNTokenListResolutionStrategy.resolve env tokenlist⟩

/-- A source fails when its fetch rejects at the transport level or when
its response body fails to parse as JSON. -/
def failsAt (env : FetchEnv) (url : String) : Prop :=
  env url = none ∨ ∃ r, env url = some r ∧ r.jsonBody = none

/-- Reference to a JS array object in the heap. -/
structure ArrayRef where
  idx : Nat
deriving DecidableEq, Repr

/-- A heap of array objects, indexed by ArrayRef. -/
abbrev Heap := List (List TokenInfo)

/-- Read the array object a reference designates. -/
def Heap.readArr (h : Heap) (r : ArrayRef) : List TokenInfo := h.getD r.idx []

/-- Mutate the array object a reference designates (in-place update, as a
caller holding the reference can perform). -/
def Heap.writeArr (h : Heap) (r : ArrayRef) (v : List TokenInfo) : Heap := h.set r.idx v

/-- Reference-level model of the container: the constructor parameter
property stores the caller's array reference in the private field without
copying, so the structure holds the very reference it was given. -/
structure TokenListContainerRef where
  tokenListRef : ArrayRef
deriving DecidableEq, Repr

/-- getList at the reference level: the source returns this.tokenList,
the stored array reference itself, not a copy. -/
def TokenListContainerRef.getListRef (c : TokenListContainerRef) : ArrayRef := c.tokenListRef

/-- Sample record carrying the tag foo on chain 101. -/
def tokA : TokenInfo :=
  { chainId := 101, address := "X", name := "X", decimals := 0, symbol := "X",
    logoURI := none, tags := some ["foo"], extensions := none }

/-- Sample record with an absent tag list on chain 102. -/
def tokB : TokenInfo :=
  { chainId := 102, address := "Y", name := "Y", decimals := 0, symbol := "Y",
    logoURI := none, tags := none, extensions := none }

/-- Sample bundled static document with a non-empty tokens list. -/
def wFallback : TokenList :=
  { name := "static", logoURI := "", tags := [], timestamp := "", tokens := some [tokA] }

/-- Sample fetched document served by source a. -/
def wDocA : TokenList :=
  { name := "docA", logoURI := "", tags := [], timestamp := "", tokens := some [tokA] }

/-- Sample fetched document served by source b. -/
def wDocB : TokenList :=
  { name := "docB", logoURI := "", tags := [], timestamp := "", tokens := some [tokB] }

/-- Environment in which sources a and b complete with parseable bodies
and every other URL fails at the transport level. -/
def wEnv : FetchEnv := fun u =>
  if u = "a" then some { ok := true, jsonBody := some wDocA }
  else if u = "b" then some { ok := true, jsonBody := some wDocB }
  else none

/-- A document with a parseable body but an empty tokens list, served with
a non-OK status in the C4 analysis. -/
def badStatusDoc : TokenList :=
  { name := "bad", logoURI := "", tags := [], timestamp := "", tokens := some [] }

/-- Environment in which URL u completes with a non-OK status and a body
that nevertheless parses as a document. -/
def c4Env : FetchEnv := fun u =>
  if u = "u" then some { ok := false, jsonBody := some badStatusDoc } else none

/-- Folding list concatenation from an accumulator yields the accumulator
followed by the join of the folded lists. -/
theorem foldl_concat_eq_append_join (L : List (List TokenInfo)) (acc : List TokenInfo) :
    L.foldl (fun acc arr => acc ++ arr) acc = acc ++ L.flatten := by
  induction L generalizing acc with
  | nil => simp
  | cons x t ih => simp [ih, List.append_assoc]

/-- Mapping a function over a list agrees with mapping over its index
range through getD. -/
theorem map_eq_range_map_getD {α β : Type} (l : List α) (f : α → β) (d : α) :
    (List.range l.length).map (fun i => f (l.getD i d)) = l.map f := by
  induction l with
  | nil => simp
  | cons a t ih =>
    simp only [List.length_cons, List.range_succ_eq_map, List.map_cons, List.map_map]
    refine congrArg₂ _ rfl ?_
    rw [← ih]
    exact List.map_congr_left (fun i _ => by simp [Function.comp, List.getElem?_cons_succ])

/-- In a list of key-value pairs with pairwise distinct keys, find? on a
key returns the unique pair carrying that key. -/
theorem find?_eq_of_mem_of_nodup_keys (l : List (Nat × TokenList)) (i : Nat) (x : TokenList)
    (hnd : (l.map Prod.fst).Nodup) (hm : (i, x) ∈ l) :
    l.find? (fun p => p.1 == i) = some (i, x) := by
  induction l with
  | nil => cases hm
  | cons hd t ih =>
    simp only [List.map_cons, List.nodup_cons] at hnd
    rcases List.mem_cons.mp hm with h | hmt
    · subst h
      simp [List.find?_cons_of_pos]
    · have hne : hd.1 ≠ i := by
        intro he
        exact hnd.1 (he ▸ List.mem_map_of_mem Prod.fst hmt)
      rw [List.find?_cons_of_neg _ (by simpa using hne)]
      exact ih hnd.2 hmt

/-- filterMap coincides with map when the partial function is total on the
list with the given values. -/
theorem filterMap_eq_map_of_forall_some (l : List Nat) (f : Nat → Option TokenList)
    (g : Nat → TokenList) (h : ∀ i ∈ l, f i = some (g i)) :
    l.filterMap f = l.map g := by
  induction l with
  | nil => rfl
  | cons a t ih =>
    rw [List.filterMap_cons, h a (List.mem_cons_self a t), List.map_cons,
      ih (fun i hi => h i (List.mem_cons_of_mem a hi))]

/-- A boolean predicate and its negation split the length of a list. -/
theorem length_filter_add_length_filter_neg (p : TokenInfo → Bool) (S : List TokenInfo) :
    (S.filter p).length + (S.filter (fun x => !(p x))).length = S.length := by
  induction S with
  | nil => rfl
  | cons a t ih =>
    cases hp : p a <;> simp [List.filter_cons, hp] <;> omega

/-- Reading an index just written in a heap returns the written value. -/
theorem getD_set_self (h : Heap) (i : Nat) (v : List TokenInfo) (hi : i < h.length) :
    (h.set i v).getD i [] = v := by
  induction h generalizing i with
  | nil => cases hi
  | cons a t ih =>
    cases i with
    | zero => rfl
    | succ j => exact ih j (by simpa using hi)

/-- Assembling any completion schedule of the settled fetch outcomes by
source index recovers the per-file outcomes in declaration order. -/
theorem assembleInOrder_perm (env : FetchEnv) (tokenlist : TokenList) (files : List String)
    (settled : List (Nat × TokenList))
    (h : settled.Perm (settleJsonFiles env tokenlist files)) :
    assembleInOrder files.length settled = files.map (fetchParse env tokenlist) := by
  have hkeys : (settleJsonFiles env tokenlist files).map Prod.fst = List.range files.length := by
    simp [settleJsonFiles, List.map_map, Function.comp_def]
  have hnd : (settled.map Prod.fst).Nodup := by
    rw [(h.map Prod.fst).nodup_iff, hkeys]
    exact List.nodup_range _
  have hfind : ∀ i ∈ List.range files.length,
      (settled.find? (fun p => p.1 == i)).map Prod.snd
        = some (fetchParse env tokenlist (files.getD i "")) := by
    intro i hi
    have hmem : (i, fetchParse env tokenlist (files.getD i "")) ∈ settled := by
      apply h.mem_iff.mpr
      simpa [settleJsonFiles] using
        List.mem_map_of_mem (fun i => (i, fetchParse env tokenlist (files.getD i ""))) hi
    rw [find?_eq_of_mem_of_nodup_keys settled i _ hnd hmem]
    rfl
  unfold assembleInOrder
  rw [filterMap_eq_map_of_forall_some _ _
    (fun i => fetchParse env tokenlist (files.getD i "")) hfind]
  exact map_eq_range_map_getD files (fetchParse env tokenlist) ""

/-- A failing source's fetch-and-parse outcome is the bundled document. -/
theorem fetchParse_of_failsAt (env : FetchEnv) (tokenlist : TokenList) (url : String)
    (h : failsAt env url) : fetchParse env tokenlist url = tokenlist := by
  rcases h with h | ⟨r, hr, hb⟩
  · simp [fetchParse, h]
  · simp [fetchParse, hr, hb]

/-- Resolution over a single source substitutes the bundled document's
tokens when that source fails. -/
theorem queryJsonFiles_single_failure (env : FetchEnv) (tokenlist : TokenList) (url : String)
    (h : failsAt env url) :
    queryJsonFiles env tokenlist [url] = tokensOrEmpty tokenlist := by
  simp [queryJsonFiles, fetchParse_of_failsAt env tokenlist url h]

/-- C1: a network-backed strategy's resolve never raises to the caller on
a source failure (the embedding of resolve is a total function into plain
record sequences, with no error outcome in its type); each failing
source's outcome is replaced with the bundled static fallback document,
and resolving over the strategy's one failing source yields exactly the
fallback document's tokens list, read as empty when that field is
absent. -/
theorem resolve_absorbs_source_failure (env : FetchEnv) (tokenlist : TokenList)
    (hg : ∀ url ∈ GitHubTokenListResolutionStrategy.repositories, failsAt env url)
    (hc : ∀ url ∈ CDNTokenListResolutionStrategy.repositories, failsAt env url)
    (hs : ∀ url ∈ SolanaTokenListResolutionStrategy.repositories, failsAt env url) :
    GitHubTokenListResolutionStrategy.resolve env tokenlist = tokensOrEmpty tokenlist
  ∧ CDNTokenListResolutionStrategy.resolve env tokenlist = tokensOrEmpty tokenlist
  ∧ SolanaTokenListResolutionStrategy.resolve env tokenlist = tokensOrEmpty tokenlist := by
  refine ⟨?_, ?_, ?_⟩
  · exact queryJsonFiles_single_failure env tokenlist _
      (hg _ (List.mem_singleton_self _))
  · exact queryJsonFiles_single_failure env tokenlist _
      (hc _ (List.mem_singleton_self _))
  · exact queryJsonFiles_single_failure env tokenlist _
      (hs _ (List.mem_singleton_self _))

/-- C1 witness: in an environment where every fetch rejects, each of the
three network-backed strategies resolves to the sample fallback's tokens
list. -/
theorem resolve_absorbs_source_failure_witness :
    GitHubTokenListResolutionStrategy.resolve (fun _ => none) wFallback
        = tokensOrEmpty wFallback
  ∧ CDNTokenListResolutionStrategy.resolve (fun _ => none) wFallback
        = tokensOrEmpty wFallback
  ∧ SolanaTokenListResolutionStrategy.resolve (fun _ => none) wFallback
        = tokensOrEmpty wFallback :=
  resolve_absorbs_source_failure (fun _ => none) wFallback
    (fun _ _ => Or.inl rfl) (fun _ _ => Or.inl rfl) (fun _ _ => Or.inl rfl)

/-- C2: for any configured source list, the resolved sequence is the
concatenation, in source-declaration order, of each source's tokens
sequence (fetched document, or fallback on failure; missing tokens read
as empty) — and the same holds for the evaluation against an arbitrary
completion schedule of the concurrent fetches, i.e. any permutation of
the settled per-source outcomes. -/
theorem queryJsonFiles_concat_in_declaration_order (env : FetchEnv) (tokenlist : TokenList)
    (files : List String) (settled : List (Nat × TokenList))
    (h : settled.Perm (settleJsonFiles env tokenlist files)) :
    queryJsonFilesSettled files settled
        = (files.map (fun u => tokensOrEmpty (fetchParse env tokenlist u))).flatten
      ∧ queryJsonFiles env tokenlist files
        = (files.map (fun u => tokensOrEmpty (fetchParse env tokenlist u))).flatten := by
  constructor
  · unfold queryJsonFilesSettled
    rw [assembleInOrder_perm env tokenlist files settled h, foldl_concat_eq_append_join,
      List.nil_append, List.map_map]
    rfl
  · unfold queryJsonFiles
    rw [foldl_concat_eq_append_join, List.nil_append, List.map_map]
    rfl

/-- C2 witness: with two sources a and b whose fetches settle in reverse
order, the assembled result still follows declaration order. -/
theorem queryJsonFiles_concat_in_declaration_order_witness :
    queryJsonFilesSettled ["a", "b"] [(1, wDocB), (0, wDocA)]
      = (["a", "b"].map (fun u => tokensOrEmpty (fetchParse wEnv wFallback u))).flatten :=
  (queryJsonFiles_concat_in_declaration_order wEnv wFallback ["a", "b"] [(1, wDocB), (0, wDocA)]
    (by
      have hcanon : settleJsonFiles wEnv wFallback ["a", "b"] = [(0, wDocA), (1, wDocB)] := by
        decide
      rw [hcanon]
      exact List.Perm.swap (0, wDocA) (1, wDocB) [])).1

/-- C10: resolution over an empty source list returns the empty sequence,
independently of the fetch environment and of the bundled document (no
fetch is consulted and no fallback is substituted), and the container
built from it holds the empty list. -/
theorem queryJsonFiles_empty_sources (env : FetchEnv) (tokenlist : TokenList) :
    queryJsonFiles env tokenlist [] = []
  ∧ (TokenListContainer.mk (queryJsonFiles env tokenlist [])).getList = [] :=
  ⟨rfl, rfl⟩

/-- The delegated filter with an own key's numeric value coincides with
the public filterByChainId at that number. -/
theorem filterByChainIdJs_num (c : TokenListContainer) (n : Int) :
    c.filterByChainIdJs (JsChainIdValue.num n) = c.filterByChainId n := rfl

/-- The delegated filter with an inherited non-numeric value keeps no
record: strict equality of a numeric chainId with it is always false. -/
theorem filterByChainIdJs_inherited (c : TokenListContainer) (k : String) :
    c.filterByChainIdJs (JsChainIdValue.inheritedObject k) = TokenListContainer.mk [] := by
  simp [TokenListContainer.filterByChainIdJs, jsStrictEqNum]

/-- C3 counterexample: the slug toString is not one of the three
recognized slugs, yet filterByClusterSlug does not fail on it: the JS in
operator finds the property inherited from Object.prototype, the indexed
read hands its non-numeric value to filterByChainId, and the call
returns a container holding the empty list instead of the
invalid-argument error the claim predicts. -/
theorem filterByClusterSlug_prototype_counterexample :
    "toString" ∉ (["mainnet-beta", "testnet", "devnet"] : List String)
  ∧ (TokenListContainer.mk [tokA]).filterByClusterSlug "toString"
      = Except.ok (TokenListContainer.mk [])
  ∧ (TokenListContainer.mk [tokA]).filterByClusterSlug "toString"
      ≠ Except.error ("Unknown slug: " ++ "toString" ++ ", please use one of "
          ++ String.intercalate "," (CLUSTER_SLUGS.map Prod.fst)) :=
  ⟨by decide, rfl, fun h => Except.noConfusion h⟩

/-- C3 amended: filterByClusterSlug maps mainnet-beta, testnet, devnet
to filterByChainId at 101, 102, 103 respectively; a slug that is neither
a recognized slug nor a property name inherited from Object.prototype
fails with the invalid-argument error carrying the offending slug and
the comma-joined recognized slugs; but a slug naming an inherited
Object.prototype property passes the in-check and returns a container
holding the empty list instead of failing. Every other container
operation is total in its embedded type, so filterByClusterSlug remains
the sole failing operation. -/
theorem filterByClusterSlug_spec (c : TokenListContainer) (slug : String) (pkey : String)
    (h : slug ∉ (["mainnet-beta", "testnet", "devnet"] : List String))
    (h2 : slug ∉ OBJECT_PROTOTYPE_KEYS) (hp : pkey ∈ OBJECT_PROTOTYPE_KEYS) :
    c.filterByClusterSlug "mainnet-beta" = Except.ok (c.filterByChainId 101)
  ∧ c.filterByClusterSlug "testnet" = Except.ok (c.filterByChainId 102)
  ∧ c.filterByClusterSlug "devnet" = Except.ok (c.filterByChainId 103)
  ∧ c.filterByClusterSlug slug
      = Except.error ("Unknown slug: " ++ slug ++ ", please use one of "
          ++ String.intercalate "," (CLUSTER_SLUGS.map Prod.fst))
  ∧ String.intercalate "," (CLUSTER_SLUGS.map Prod.fst) = "mainnet-beta,testnet,devnet"
  ∧ c.filterByClusterSlug pkey = Except.ok (TokenListContainer.mk []) := by
  simp only [List.mem_cons, List.not_mem_nil, or_false, not_or] at h
  obtain ⟨h1a, h1b, h1c⟩ := h
  refine ⟨rfl, rfl, rfl, ?_, by decide, ?_⟩
  · have hown : slug ∉ CLUSTER_SLUGS.map Prod.fst := by
      simp [CLUSTER_SLUGS, h1a, h1b, h1c]
    have hin : inClusterSlugs slug = false := by
      simp [inClusterSlugs, hown, h2]
    simp [TokenListContainer.filterByClusterSlug, hin]
  · fin_cases hp <;>
      exact congrArg Except.ok (filterByChainIdJs_inherited c _)

/-- C3 witness: an ordinary unrecognized slug produces the
invalid-argument error carrying that slug and the recognized slugs,
while the inherited property name toString instead yields an
empty-holding container. -/
theorem filterByClusterSlug_spec_witness :
    (TokenListContainer.mk [tokA]).filterByClusterSlug "unknown-slug"
      = Except.error ("Unknown slug: " ++ "unknown-slug" ++ ", please use one of "
          ++ String.intercalate "," (CLUSTER_SLUGS.map Prod.fst))
  ∧ (TokenListContainer.mk [tokA]).filterByClusterSlug "toString"
      = Except.ok (TokenListContainer.mk []) :=
  ⟨(filterByClusterSlug_spec (TokenListContainer.mk [tokA]) "unknown-slug" "toString"
      (by decide) (by decide) (by decide)).2.2.2.1,
   (filterByClusterSlug_spec (TokenListContainer.mk [tokA]) "unknown-slug" "toString"
      (by decide) (by decide) (by decide)).2.2.2.2.2⟩

/-- C5: filterByTag keeps exactly the records whose tag list contains the
tag (a record with an absent tag list never matches); excludeByTag keeps
exactly the records whose tag list does not contain the tag (a record
with an absent tag list is always kept); both results are sublists of the
original sequence, hence preserve its relative order. -/
theorem filterByTag_excludeByTag_membership (S : List TokenInfo) (t : String) :
    (∀ r, r ∈ ((TokenListContainer.mk S).filterByTag t).getList
        ↔ r ∈ S ∧ t ∈ r.tags.getD [])
  ∧ (∀ r, r.tags = none → r ∉ ((TokenListContainer.mk S).filterByTag t).getList)
  ∧ (∀ r, r ∈ ((TokenListContainer.mk S).excludeByTag t).getList
        ↔ r ∈ S ∧ t ∉ r.tags.getD [])
  ∧ (∀ r, r.tags = none → r ∈ S → r ∈ ((TokenListContainer.mk S).excludeByTag t).getList)
  ∧ ((TokenListContainer.mk S).filterByTag t).getList.Sublist S
  ∧ ((TokenListContainer.mk S).excludeByTag t).getList.Sublist S := by
  have hf : ∀ r, r ∈ ((TokenListContainer.mk S).filterByTag t).getList
      ↔ r ∈ S ∧ t ∈ r.tags.getD [] := by
    intro r
    simp [TokenListContainer.filterByTag, TokenListContainer.getList, List.mem_filter]
  have he : ∀ r, r ∈ ((TokenListContainer.mk S).excludeByTag t).getList
      ↔ r ∈ S ∧ t ∉ r.tags.getD [] := by
    intro r
    simp [TokenListContainer.excludeByTag, TokenListContainer.getList, List.mem_filter]
  refine ⟨hf, ?_, he, ?_, ?_, ?_⟩
  · intro r hr hmem
    rcases (hf r).mp hmem with ⟨_, ht⟩
    rw [hr] at ht
    cases ht
  · intro r hr hS
    exact (he r).mpr ⟨hS, by rw [hr]; exact List.not_mem_nil t⟩
  · exact List.filter_sublist _
  · exact List.filter_sublist _

/-- C5 witness: the record with an absent tag list is excluded by
filterByTag and kept by excludeByTag. -/
theorem filterByTag_excludeByTag_membership_witness :
    tokB ∉ ((TokenListContainer.mk [tokA, tokB]).filterByTag "foo").getList
  ∧ tokB ∈ ((TokenListContainer.mk [tokA, tokB]).excludeByTag "foo").getList :=
  ⟨(filterByTag_excludeByTag_membership [tokA, tokB] "foo").2.1 tokB rfl,
   (filterByTag_excludeByTag_membership [tokA, tokB] "foo").2.2.2.1 tokB rfl (by decide)⟩

/-- C6: each filtering operation (filterByTag, excludeByTag,
filterByChainId, excludeByChainId, and filterByClusterSlug on a
recognized slug) yields a new container whose sequence is derived from
the original one, and the original container still holds its sequence S
unchanged afterwards. -/
theorem filters_fresh_container_original_unchanged (S : List TokenInfo) (t : String) (n : Int)
    (slug : String) (h : slug ∈ CLUSTER_SLUGS.map Prod.fst) :
    ((TokenListContainer.mk S).filterByTag t).getList.Sublist S
  ∧ ((TokenListContainer.mk S).excludeByTag t).getList.Sublist S
  ∧ ((TokenListContainer.mk S).filterByChainId n).getList.Sublist S
  ∧ ((TokenListContainer.mk S).excludeByChainId n).getList.Sublist S
  ∧ (∃ c', (TokenListContainer.mk S).filterByClusterSlug slug = Except.ok c'
        ∧ c'.getList.Sublist S)
  ∧ (TokenListContainer.mk S).getList = S := by
  refine ⟨List.filter_sublist _, List.filter_sublist _, List.filter_sublist _,
    List.filter_sublist _, ?_, rfl⟩
  simp only [CLUSTER_SLUGS, List.map_cons, List.map_nil, List.mem_cons,
    List.not_mem_nil, or_false] at h
  rcases h with h | h | h <;> subst h
  · exact ⟨(TokenListContainer.mk S).filterByChainId 101, rfl, List.filter_sublist _⟩
  · exact ⟨(TokenListContainer.mk S).filterByChainId 102, rfl, List.filter_sublist _⟩
  · exact ⟨(TokenListContainer.mk S).filterByChainId 103, rfl, List.filter_sublist _⟩

/-- C6 witness: after a filterByClusterSlug call on a recognized slug,
the original container still returns its full sequence. -/
theorem filters_fresh_container_original_unchanged_witness :
    (TokenListContainer.mk [tokA, tokB]).getList = [tokA, tokB] :=
  (filters_fresh_container_original_unchanged [tokA, tokB] "foo" 101 "testnet"
    (by decide)).2.2.2.2.2

/-- C8: every record of the sequence lands in exactly one of filterByTag
and excludeByTag for the same tag, and the two result lengths sum to the
original length. -/
theorem filterByTag_excludeByTag_partition (S : List TokenInfo) (t : String) :
    (∀ r, r ∈ S →
        (r ∈ ((TokenListContainer.mk S).filterByTag t).getList
            ∧ r ∉ ((TokenListContainer.mk S).excludeByTag t).getList)
      ∨ (r ∉ ((TokenListContainer.mk S).filterByTag t).getList
            ∧ r ∈ ((TokenListContainer.mk S).excludeByTag t).getList))
  ∧ ((TokenListContainer.mk S).filterByTag t).getList.length
      + ((TokenListContainer.mk S).excludeByTag t).getList.length
      = (TokenListContainer.mk S).getList.length := by
  constructor
  · intro r hr
    by_cases hc : t ∈ r.tags.getD []
    · left
      constructor
      · simp [TokenListContainer.filterByTag, TokenListContainer.getList, List.mem_filter,
          hr, hc]
      · simp [TokenListContainer.excludeByTag, TokenListContainer.getList, List.mem_filter,
          hc]
    · right
      constructor
      · simp [TokenListContainer.filterByTag, TokenListContainer.getList, List.mem_filter,
          hc]
      · simp [TokenListContainer.excludeByTag, TokenListContainer.getList, List.mem_filter,
          hr, hc]
  · simpa [TokenListContainer.filterByTag, TokenListContainer.excludeByTag,
      TokenListContainer.getList] using
      length_filter_add_length_filter_neg (fun item => (item.tags.getD []).contains t) S

/-- C8 witness: the tagged record lands in filterByTag and not in
excludeByTag. -/
theorem filterByTag_excludeByTag_partition_witness :
    (tokA ∈ ((TokenListContainer.mk [tokA, tokB]).filterByTag "foo").getList
        ∧ tokA ∉ ((TokenListContainer.mk [tokA, tokB]).excludeByTag "foo").getList)
  ∨ (tokA ∉ ((TokenListContainer.mk [tokA, tokB]).filterByTag "foo").getList
        ∧ tokA ∈ ((TokenListContainer.mk [tokA, tokB]).excludeByTag "foo").getList) :=
  (filterByTag_excludeByTag_partition [tokA, tokB] "foo").1 tokA (by decide)

/-- C9: filtering by tag and then by chain identifier yields the same
sequence as filtering by chain identifier and then by tag. -/
theorem filterByTag_filterByChainId_comm (c : TokenListContainer) (t : String) (n : Int) :
    ((c.filterByTag t).filterByChainId n).getList
      = ((c.filterByChainId n).filterByTag t).getList := by
  simp only [TokenListContainer.filterByTag, TokenListContainer.filterByChainId,
    TokenListContainer.getList]
  exact List.filter_comm _ _ _

/-- C4 counterexample: a source whose HTTP GET completes with a non-OK
status but a JSON-parseable body is not replaced with the fallback: the
parsed document is used, so resolution yields its (empty) tokens list
rather than the fallback's non-empty one. The ok flag of the response is
never consulted by the per-source step. -/
theorem nonOk_status_not_substituted_counterexample :
    c4Env "u" = some { ok := false, jsonBody := some badStatusDoc }
  ∧ fetchParse c4Env wFallback "u" = badStatusDoc
  ∧ badStatusDoc ≠ wFallback
  ∧ queryJsonFiles c4Env wFallback ["u"] = []
  ∧ tokensOrEmpty wFallback = [tokA]
  ∧ queryJsonFiles c4Env wFallback ["u"] ≠ tokensOrEmpty wFallback := by
  decide

/-- C4 amended: fallback substitution happens exactly when the fetch
rejects at the transport level or the completed response's body fails to
parse as JSON; when the body parses, the parsed document is used
regardless of the response's HTTP status. -/
theorem fetchParse_ignores_status (env : FetchEnv) (tokenlist : TokenList) (url : String)
    (r : HttpResponse) (h : env url = some r) :
    (r.jsonBody = none → fetchParse env tokenlist url = tokenlist)
  ∧ ∀ d, r.jsonBody = some d → fetchParse env tokenlist url = d := by
  constructor
  · intro hb
    simp [fetchParse, h, hb]
  · intro d hb
    simp [fetchParse, h, hb]

/-- C4 amended witness: the non-OK response's parsed body is used. -/
theorem fetchParse_ignores_status_witness :
    fetchParse c4Env wFallback "u" = badStatusDoc :=
  (fetchParse_ignores_status c4Env wFallback "u"
    { ok := false, jsonBody := some badStatusDoc } (by decide)).2 badStatusDoc rfl

/-- C7 counterexample: the constructor stores the caller's array
reference without copying and getList returns that same reference, so a
caller mutating the array after construction changes what the container
observes: in a heap holding one array, writing through the caller's
reference changes the list read through the container's getList. -/
theorem container_aliases_caller_array_counterexample :
    Heap.readArr [[tokA]] ((TokenListContainerRef.mk ⟨0⟩).getListRef) = [tokA]
  ∧ Heap.readArr (Heap.writeArr [[tokA]] ⟨0⟩ [tokB]) ((TokenListContainerRef.mk ⟨0⟩).getListRef)
      = [tokB]
  ∧ ([tokB] : List TokenInfo) ≠ [tokA] := by
  decide

/-- C7 amended: the container stores the very reference it is
constructed with and getList returns that same reference, so mutation of
the caller's array (equivalently of the array obtained from getList) is
visible through the container; no defensive copy or immutability
enforcement exists at the boundary. -/
theorem container_stores_and_returns_caller_reference (r : ArrayRef) (h : Heap)
    (v : List TokenInfo) (hlt : r.idx < h.length) :
    (TokenListContainerRef.mk r).getListRef = r
  ∧ (h.writeArr r v).readArr ((TokenListContainerRef.mk r).getListRef) = v :=
  ⟨rfl, getD_set_self h r.idx v hlt⟩

/-- C7 amended witness: writing through the constructed-with reference is
observed through getList. -/
theorem container_stores_and_returns_caller_reference_witness :
    (Heap.writeArr [[tokA]] ⟨0⟩ [tokB]).readArr ((TokenListContainerRef.mk ⟨0⟩).getListRef)
      = [tokB] :=
  (container_stores_and_returns_caller_reference ⟨0⟩ [[tokA]] [tokB] (by decide)).2
